import Mathlib

/-!
Verification development for the ATS resume analyzer core
(`ai_scorer.py` and `resume_parser.py`).

The Python code is shallowly embedded: real-number arithmetic is modelled
with `ℚ`; Python dicts whose keys vary across branches are modelled with
`Option` fields; the sentence-transformer embedding model is external, so
every function that consumes it is parameterised by a similarity function
`sim : String → String → ℚ` standing for the cosine similarity of the two
embedded texts (cosine similarity of arbitrary real vectors lies in
`[-1, 1]`, and the code itself guards against negative values in one place,
so no sign assumption is baked in).
-/

/-- Lower-case a string character-wise; models Python `str.lower()` on the
ASCII texts used throughout the analyzer. -/
def lowerStr (s : String) : String := ⟨s.data.map Char.toLower⟩

/-- The ASCII whitespace characters stripped by Python `str.strip()`. -/
def isWsChar (c : Char) : Bool :=
  c == ' ' || c == '\t' || c == '\n' || c == '\r' || c == '\x0b' || c == '\x0c'

/-- Drop leading and trailing whitespace from a character list. -/
def stripL (l : List Char) : List Char :=
  ((l.dropWhile isWsChar).reverse.dropWhile isWsChar).reverse

/-- Models Python `str.strip()`. -/
def stripStr (s : String) : String := ⟨stripL s.data⟩

/-- Normalisation applied to each skill in `calculate_skills_score`
(`s.lower().strip()`). -/
def normSkill (s : String) : String := stripStr (lowerStr s)

/-- Does `hay` start with `needle`?  Helper for the substring test. -/
def startsWithL : List Char → List Char → Bool
  | [], _ => true
  | _ :: _, [] => false
  | a :: as, b :: bs => a == b && startsWithL as bs

/-- Does `needle` occur as a contiguous run inside `hay`?  Models the
Python `in` operator on strings. -/
def occursIn (needle : List Char) : List Char → Bool
  | [] => needle.isEmpty
  | c :: t => startsWithL needle (c :: t) || occursIn needle t

/-- String containment test: models Python `needle in hay`. -/
def strIn (needle hay : String) : Bool := occursIn needle.data hay.data

theorem startsWithL_self (l : List Char) : startsWithL l l = true := by
  induction l with
  | nil => rfl
  | cons c t ih => simp [startsWithL, ih]

theorem strIn_self (s : String) : strIn s s = true := by
  unfold strIn
  cases h : s.data with
  | nil => simp [occursIn]
  | cons c t => simp [occursIn, startsWithL_self]

/-- Round a rational to the nearest integer, ties to even; models Python 3
`round` (banker's rounding). -/
def roundHalfEven (x : ℚ) : ℤ :=
  let f : ℤ := ⌊x⌋
  let r : ℚ := x - f
  if r < 1 / 2 then f
  else if 1 / 2 < r then f + 1
  else if f % 2 = 0 then f else f + 1

/-- Round to two decimal places; models Python `round(x, 2)`. -/
def round2 (x : ℚ) : ℚ := (roundHalfEven (100 * x) : ℚ) / 100

theorem roundHalfEven_nonneg (x : ℚ) (hx : 0 ≤ x) : 0 ≤ roundHalfEven x := by
  have hf : (0 : ℤ) ≤ ⌊x⌋ := by
    exact_mod_cast Int.le_floor.mpr (by exact_mod_cast hx)
  unfold roundHalfEven
  dsimp only
  split_ifs <;> omega

theorem roundHalfEven_le (x : ℚ) (n : ℤ) (hx : x ≤ n) : roundHalfEven x ≤ n := by
  have hf : ⌊x⌋ ≤ n := by
    calc ⌊x⌋ ≤ ⌊(n : ℚ)⌋ := Int.floor_le_floor hx
    _ = n := Int.floor_intCast n
  unfold roundHalfEven
  dsimp only
  split_ifs with h1 h2 h3
  · exact hf
  · -- here 1/2 < x - ⌊x⌋, hence ⌊x⌋ < n
    have hlt : (⌊x⌋ : ℚ) + 1 / 2 < x := by linarith
    have : (⌊x⌋ : ℚ) < (n : ℚ) := by linarith
    have : ⌊x⌋ < n := by exact_mod_cast this
    omega
  · exact hf
  · -- tie case: x - ⌊x⌋ = 1/2 exactly, hence ⌊x⌋ < n
    have hr : x - (⌊x⌋ : ℚ) = 1 / 2 := le_antisymm (not_lt.mp h2) (not_lt.mp h1)
    have : (⌊x⌋ : ℚ) < (n : ℚ) := by linarith
    have : ⌊x⌋ < n := by exact_mod_cast this
    omega

theorem round2_bounds (x : ℚ) (h0 : 0 ≤ x) (h1 : x ≤ 100) :
    0 ≤ round2 x ∧ round2 x ≤ 100 := by
  have hlo : 0 ≤ roundHalfEven (100 * x) := roundHalfEven_nonneg _ (by linarith)
  have hhi : roundHalfEven (100 * x) ≤ (10000 : ℤ) :=
    roundHalfEven_le _ 10000 (by push_cast; linarith)
  constructor
  · unfold round2
    have : (0 : ℚ) ≤ (roundHalfEven (100 * x) : ℚ) := by exact_mod_cast hlo
    positivity
  · unfold round2
    have : (roundHalfEven (100 * x) : ℚ) ≤ 10000 := by exact_mod_cast hhi
    linarith

/-- Cosine similarity of the embeddings of two texts; the embedding model is
an external dependency of `AIScorer`, so scoring functions take it as a
parameter. -/
abbrev SimFun := String → String → ℚ

/-- One education entry as produced by `ResumeParser._extract_education`
(a dict with keys `degree` and `details`). -/
structure EduEntry where
  degree : String
  details : String
deriving DecidableEq, Repr

/-- One project entry (`title`, `description`), as produced by
`ResumeParser._extract_projects`. -/
structure ProjEntry where
  title : String
  description : String
deriving DecidableEq, Repr

/-- The parsed resume fields consumed by `AIScorer.calculate_overall_score`
(the `.get(key, default)` reads of `resume_data`). -/
structure ResumeData where
  raw_text : String
  skills : List String
  experience_years : ℕ
  education : List EduEntry
  projects : List ProjEntry
deriving DecidableEq, Repr

/-- The job-role fields consumed by `AIScorer.calculate_overall_score`. -/
structure JobRole where
  title : String
  description : String
  required_skills : List String
  required_experience : ℕ
deriving DecidableEq, Repr

/-- The five-component weight mapping once all five keys have been read from
the weights dict (`weights['semantic']`, ..., `weights['projects']`). -/
structure Weights where
  semantic : ℚ
  skills : ℚ
  experience : ℚ
  education : ℚ
  projects : ℚ
deriving DecidableEq, Repr

/-- The skills explanation dict built by `calculate_skills_score`
(`matched`, `missing`, `extra`; the `match_ratio` display string carries no
information beyond `matched`/`missing` and is not modelled). -/
structure SkillsExpl where
  matched : List String
  missing : List String
  extra : List String
deriving DecidableEq, Repr

/-- The experience explanation dict built by `calculate_experience_score`.
When `required_years == 0` the Python dict holds only a message and none of
these keys, hence the `Option` fields (a `.get` on an absent key yields
`None`). -/
structure ExpExpl where
  resume_years : Option ℕ
  required_years : Option ℕ
  meets_requirement : Option Bool
deriving DecidableEq, Repr

/-- The education explanation dict built by `calculate_education_score`;
`Option` fields for the same reason as `ExpExpl` (the empty-education early
return carries only a message). -/
structure EduExpl where
  found_education : Option (List String)
  required_levels : Option (List String)
  meets_requirement : Option Bool
deriving DecidableEq, Repr

/-- The flat fields of the dict returned by `calculate_overall_score`
(the nested per-component breakdown repeats the same numbers and is not
modelled). -/
structure ScoreResult where
  overall_score : ℚ
  semantic_score : ℚ
  skills_score : ℚ
  experience_score : ℚ
  education_score : ℚ
  projects_score : ℚ
  recommendations : List String
  is_shortlisted : Bool
deriving DecidableEq, Repr

/-- Models `AIScorer.calculate_semantic_similarity` (lines 60-82): cosine
similarity of the two embeddings, clamped to `[0, 1]` by
`max(0, min(1, similarity))`. -/
def calculate_semantic_similarity (sim : SimFun) (resume_text job_description : String) : ℚ :=
  max 0 (min 1 (sim resume_text job_description))

/-- Models `AIScorer.calculate_skills_score` (lines 84-131). -/
def calculate_skills_score (resume_skills required_skills : List String) :
    ℚ × SkillsExpl :=
  if required_skills.isEmpty then
    (50, ⟨[], [], resume_skills⟩)
  else
    let rs := resume_skills.map normSkill
    let rq := required_skills.map normSkill
    let matched := rq.filter fun req => rs.any fun res => strIn req res || strIn res req
    let missing := rq.filter fun req => !(rs.any fun res => strIn req res || strIn res req)
    let score : ℚ := ((matched.length : ℚ) / (rq.length : ℚ)) * 100
    let extra := (rs.filter fun s => !(matched.contains s)).take 5
    (score, ⟨matched, missing, extra⟩)

/-- Models `AIScorer.calculate_experience_score` (lines 133-159). -/
def calculate_experience_score (resume_years required_years : ℕ) : ℚ × ExpExpl :=
  if required_years = 0 then
    (100, ⟨none, none, none⟩)
  else
    let score : ℚ :=
      if required_years ≤ resume_years then 100
      else min 100 ((resume_years : ℚ) / (required_years : ℚ) * 100)
    (score, ⟨some resume_years, some required_years, some (decide (required_years ≤ resume_years))⟩)

/-- The `role_requirements` table of `calculate_education_score`, in Python
dict insertion order (iteration order of `.items()`). -/
def role_requirements : List (String × List String) :=
  [("engineer", ["bachelor", "b.tech", "b.e", "master", "m.tech"]),
   ("scientist", ["master", "m.tech", "phd", "ph.d"]),
   ("developer", ["bachelor", "b.tech", "diploma"]),
   ("data", ["bachelor", "master", "phd"])]

/-- The required-levels resolution loop of `calculate_education_score`
(lines 183-193): first table key contained in the lowered job title wins;
bachelor-level default when no key matches. -/
def resolveLevels (job_role : String) : List String :=
  match role_requirements.find? (fun kv => strIn kv.1 (lowerStr job_role)) with
  | some kv => kv.2
  | none => ["bachelor", "b.tech", "b.e"]

/-- The `degree + ' ' + details` lower-cased text an entry is matched on. -/
def eduText (e : EduEntry) : String := lowerStr e.degree ++ " " ++ lowerStr e.details

/-- Models `AIScorer.calculate_education_score` (lines 161-215). -/
def calculate_education_score (resume_education : List EduEntry) (job_role : String) :
    ℚ × EduExpl :=
  if resume_education.isEmpty then
    (30, ⟨none, none, none⟩)
  else
    let required_levels := resolveLevels job_role
    let found_levels :=
      resume_education.flatMap fun e => required_levels.filter fun l => strIn l (eduText e)
    let score : ℚ := if found_levels.isEmpty then 60 else 100
    (score, ⟨some (resume_education.map (·.degree)), some required_levels,
             some (decide (0 < found_levels.length))⟩)

/-- The `title + ' ' + description` text a project is embedded from. -/
def projText (p : ProjEntry) : String := p.title ++ " " ++ p.description

/-- Models `AIScorer.calculate_projects_score` (lines 217-273): projects
whose combined text (stripped) is shorter than 10 characters are skipped;
the score is `min(100, mean(similarities) * 100)` — note the absence of a
lower clamp.  Only the score is consumed downstream, so the explanation
payload (project counts, top-3 list) is not modelled. -/
def calculate_projects_score (sim : SimFun) (resume_projects : List ProjEntry)
    (job_description : String) : ℚ :=
  if resume_projects.isEmpty then 0
  else
    let texts := (resume_projects.map projText).filter fun t => !((stripStr t).length < 10)
    let project_scores := texts.map fun t => sim t job_description
    if project_scores.isEmpty then 0
    else min 100 (project_scores.sum / (project_scores.length : ℚ) * 100)

/-- Models `AIScorer._generate_recommendations` (lines 389-411).  The
`.get('meets_requirement')` / `.get('required_years', 0)` dict reads become
`Option` reads; Python truthiness of `None`/`False` is the
`≠ some true` test. -/
def generate_recommendations (overall_score : ℚ) (skills_explanation : SkillsExpl)
    (experience_explanation : ExpExpl) (education_explanation : EduExpl) : List String :=
  if overall_score < 70 then
    (if !skills_explanation.missing.isEmpty then
      ["Missing key skills: " ++ String.intercalate ", " (skills_explanation.missing.take 3)]
     else []) ++
    (if experience_explanation.meets_requirement ≠ some true then
      ["Need more experience: " ++ toString (experience_explanation.required_years.getD 0)
        ++ " years required"]
     else []) ++
    (if education_explanation.meets_requirement ≠ some true then
      ["Consider highlighting relevant education credentials"]
     else [])
  else
    ["Strong candidate! Well-matched for the role."]

/-- The weighted sum of lines 320-326 of `calculate_overall_score`, before
rounding. -/
def overall_raw_score (sim : SimFun) (resume_data : ResumeData) (job_role : JobRole)
    (weights : Weights) : ℚ :=
  weights.semantic * (calculate_semantic_similarity sim resume_data.raw_text job_role.description * 100)
  + weights.skills * (calculate_skills_score resume_data.skills job_role.required_skills).1
  + weights.experience * (calculate_experience_score resume_data.experience_years job_role.required_experience).1
  + weights.education * (calculate_education_score resume_data.education job_role.title).1
  + weights.projects * calculate_projects_score sim resume_data.projects job_role.description

/-- Models `AIScorer.calculate_overall_score` (lines 275-387) once the five
weight keys have been read into a `Weights` record (the dict-read step is
modelled separately by `weights_of_dict`). -/
def calculate_overall_score (sim : SimFun) (resume_data : ResumeData) (job_role : JobRole)
    (weights : Weights) : ScoreResult :=
  let semantic_similarity :=
    calculate_semantic_similarity sim resume_data.raw_text job_role.description
  let sk := calculate_skills_score resume_data.skills job_role.required_skills
  let ex := calculate_experience_score resume_data.experience_years job_role.required_experience
  let ed := calculate_education_score resume_data.education job_role.title
  let pr := calculate_projects_score sim resume_data.projects job_role.description
  let overall := round2 (overall_raw_score sim resume_data job_role weights)
  { overall_score := overall
    semantic_score := round2 (semantic_similarity * 100)
    skills_score := round2 sk.1
    experience_score := round2 ex.1
    education_score := round2 ed.1
    projects_score := round2 pr
    recommendations := generate_recommendations overall sk.2 ex.2 ed.2
    is_shortlisted := decide (70 ≤ overall) }

/-- The default `self.weights` dict set in `AIScorer.__init__`, in insertion
order. -/
def default_weights : List (String × ℚ) :=
  [("semantic", 2/5), ("skills", 3/10), ("experience", 3/20),
   ("education", 1/10), ("projects", 1/20)]

/-- Association-list read modelling a Python dict lookup `w[k]`
(`none` = `KeyError`). -/
def lookupW (w : List (String × ℚ)) (k : String) : Option ℚ :=
  (w.find? fun kv => kv.1 == k).map (·.2)

/-- The five dict reads `weights['semantic']`, ..., `weights['projects']`
performed by `calculate_overall_score`; any absent key is a `KeyError`,
modelled as `none`. -/
def weights_of_dict (w : List (String × ℚ)) : Option Weights :=
  match lookupW w "semantic", lookupW w "skills", lookupW w "experience",
        lookupW w "education", lookupW w "projects" with
  | some a, some b, some c, some d, some e => some ⟨a, b, c, d, e⟩
  | _, _, _, _, _ => none

/-- Line 292, `weights = custom_weights or self.weights`: a falsy
`custom_weights` (absent, or an empty dict) silently falls back to the
default weights; any non-empty dict is used verbatim. -/
def resolve_custom_weights (custom_weights : Option (List (String × ℚ))) :
    List (String × ℚ) :=
  match custom_weights with
  | none => default_weights
  | some [] => default_weights
  | some w => w

/-- `calculate_overall_score` as called with a caller-supplied
`custom_weights` dict; `none` models the untyped `KeyError` escaping the
call when a component key is absent. -/
def calculate_overall_score_custom (sim : SimFun) (resume_data : ResumeData)
    (job_role : JobRole) (custom_weights : Option (List (String × ℚ))) :
    Option ScoreResult :=
  (weights_of_dict (resolve_custom_weights custom_weights)).map
    (calculate_overall_score sim resume_data job_role)

theorem semantic_similarity_bounds (sim : SimFun) (a b : String) :
    0 ≤ calculate_semantic_similarity sim a b ∧ calculate_semantic_similarity sim a b ≤ 1 := by
  unfold calculate_semantic_similarity
  exact ⟨le_max_left 0 _, max_le (by norm_num) (min_le_left 1 _)⟩

theorem skills_score_bounds (rs rq : List String) :
    0 ≤ (calculate_skills_score rs rq).1 ∧ (calculate_skills_score rs rq).1 ≤ 100 := by
  unfold calculate_skills_score
  cases h : rq.isEmpty with
  | true => simp [h]; norm_num
  | false =>
    have hne : rq ≠ [] := by
      intro hcon
      rw [hcon] at h
      simp at h
    have hlen : 0 < (rq.map normSkill).length := by
      simpa using List.length_pos.mpr hne
    have hlenQ : (0 : ℚ) < ((rq.map normSkill).length : ℚ) := by exact_mod_cast hlen
    have hfil : ((rq.map normSkill).filter fun req =>
        (rs.map normSkill).any fun res => strIn req res || strIn res req).length
        ≤ (rq.map normSkill).length := List.length_filter_le _ _
    have hfilQ : (((rq.map normSkill).filter fun req =>
        (rs.map normSkill).any fun res => strIn req res || strIn res req).length : ℚ)
        ≤ ((rq.map normSkill).length : ℚ) := by exact_mod_cast hfil
    simp only [h, Bool.false_eq_true, if_false]
    constructor
    · positivity
    · have hdiv : (((rq.map normSkill).filter fun req =>
          (rs.map normSkill).any fun res => strIn req res || strIn res req).length : ℚ)
          / ((rq.map normSkill).length : ℚ) ≤ 1 := (div_le_one hlenQ).mpr hfilQ
      nlinarith

theorem experience_score_bounds (ry rq : ℕ) :
    0 ≤ (calculate_experience_score ry rq).1 ∧ (calculate_experience_score ry rq).1 ≤ 100 := by
  unfold calculate_experience_score
  split_ifs with h1 h2
  · norm_num
  · norm_num
  · refine ⟨le_min (by norm_num) (by positivity), min_le_left _ _⟩

theorem education_score_bounds (edu : List EduEntry) (title : String) :
    0 ≤ (calculate_education_score edu title).1 ∧ (calculate_education_score edu title).1 ≤ 100 := by
  unfold calculate_education_score
  dsimp only
  split_ifs <;> norm_num

theorem projects_score_le_100 (sim : SimFun) (projects : List ProjEntry) (jd : String) :
    calculate_projects_score sim projects jd ≤ 100 := by
  unfold calculate_projects_score
  dsimp only
  split_ifs <;> norm_num

theorem projects_score_nonneg (sim : SimFun) (projects : List ProjEntry) (jd : String)
    (hsim : ∀ a b, 0 ≤ sim a b) : 0 ≤ calculate_projects_score sim projects jd := by
  unfold calculate_projects_score
  dsimp only
  split_ifs with h1 h2
  · norm_num
  · norm_num
  · refine le_min (by norm_num) ?_
    have hsum : 0 ≤ (((projects.map projText).filter fun t =>
        !((stripStr t).length < 10)).map fun t => sim t jd).sum := by
      apply List.sum_nonneg
      intro x hx
      rcases List.mem_map.mp hx with ⟨t, _, rfl⟩
      exact hsim t jd
    positivity

/-- A similarity function that is constantly -1 (cosine similarity of
antipodal embedding vectors). -/
def negSim : SimFun := fun _ _ => -1

/-- A similarity function that is constantly 1/2. -/
def constHalfSim : SimFun := fun _ _ => 1/2

/-- The default weights of `AIScorer.__init__` as a `Weights` record. -/
def defaultW : Weights := ⟨2/5, 3/10, 3/20, 1/10, 1/20⟩

/-- A candidate profile with no skills, no experience, no education and one
project. -/
def cexResume : ResumeData :=
  { raw_text := "resume text"
    skills := []
    experience_years := 0
    education := []
    projects := [⟨"Chat App", "a realtime chat application"⟩] }

/-- A job role requiring one skill and five years of experience. -/
def cexRole : JobRole :=
  { title := "Software Engineer"
    description := "job description"
    required_skills := ["haskell"]
    required_experience := 5 }

/-- C1 counterexample: with the default weights — which sum to 1.0 — and a
similarity function that returns -1 (a legal cosine similarity), the overall
score comes out as -2, outside [0, 100]: the single project scores -100
because `calculate_projects_score` has no lower clamp, and the weighted sum
0.1 * 30 + 0.05 * (-100) = -2 is negative. -/
theorem C1_counterexample :
    defaultW.semantic + defaultW.skills + defaultW.experience + defaultW.education
      + defaultW.projects = 1 ∧
    (calculate_overall_score negSim cexResume cexRole defaultW).overall_score = -2 ∧
    (calculate_overall_score negSim cexResume cexRole defaultW).overall_score < 0 := by
  have hsem : calculate_semantic_similarity negSim "resume text" "job description" = 0 := by
    norm_num [calculate_semantic_similarity, negSim]
  have hsk : (calculate_skills_score [] ["haskell"]).1 = 0 := by
    norm_num [calculate_skills_score, List.filter, List.any]
  have hex : (calculate_experience_score 0 5).1 = 0 := by
    norm_num [calculate_experience_score, min_def]
  have hed : (calculate_education_score [] "Software Engineer").1 = 30 := by
    norm_num [calculate_education_score]
  have hb : decide ((stripStr ("Chat App" ++ " " ++ "a realtime chat application")).length < 10)
      = false := by decide
  have hpr : calculate_projects_score negSim [⟨"Chat App", "a realtime chat application"⟩]
      "job description" = -100 := by
    norm_num [calculate_projects_score, projText, negSim, min_def, List.filter, hb]
  have hraw : overall_raw_score negSim cexResume cexRole defaultW = -2 := by
    simp only [overall_raw_score, cexResume, cexRole, defaultW, hsem, hsk, hex, hed, hpr]
    norm_num
  have hover : (calculate_overall_score negSim cexResume cexRole defaultW).overall_score
      = round2 (overall_raw_score negSim cexResume cexRole defaultW) := rfl
  refine ⟨by norm_num [defaultW], ?_, ?_⟩ <;> rw [hover, hraw] <;> norm_num [round2, roundHalfEven]

/-- C1 (amended): for every candidate profile and job role, every weight
mapping over the five components with non-negative values summing to 1.0,
and every similarity function that never returns a negative value (without
this restriction the projects component can be negative, see the
counterexample), the overall score returned by `calculate_overall_score`
lies in [0, 100]. -/
theorem C1_overall_score_in_range (sim : SimFun) (resume_data : ResumeData)
    (job_role : JobRole) (w : Weights)
    (hw1 : 0 ≤ w.semantic) (hw2 : 0 ≤ w.skills) (hw3 : 0 ≤ w.experience)
    (hw4 : 0 ≤ w.education) (hw5 : 0 ≤ w.projects)
    (hsum : w.semantic + w.skills + w.experience + w.education + w.projects = 1)
    (hsim : ∀ a b, 0 ≤ sim a b) :
    0 ≤ (calculate_overall_score sim resume_data job_role w).overall_score ∧
    (calculate_overall_score sim resume_data job_role w).overall_score ≤ 100 := by
  have hsem := semantic_similarity_bounds sim resume_data.raw_text job_role.description
  have hsk := skills_score_bounds resume_data.skills job_role.required_skills
  have hex := experience_score_bounds resume_data.experience_years job_role.required_experience
  have hed := education_score_bounds resume_data.education job_role.title
  have hpr1 := projects_score_nonneg sim resume_data.projects job_role.description hsim
  have hpr2 := projects_score_le_100 sim resume_data.projects job_role.description
  have hraw : 0 ≤ overall_raw_score sim resume_data job_role w ∧
      overall_raw_score sim resume_data job_role w ≤ 100 := by
    unfold overall_raw_score
    have e1a : 0 ≤ calculate_semantic_similarity sim resume_data.raw_text job_role.description
        * 100 := by nlinarith [hsem.1]
    have e1b : calculate_semantic_similarity sim resume_data.raw_text job_role.description
        * 100 ≤ 100 := by nlinarith [hsem.2]
    have t1 := mul_le_mul_of_nonneg_left e1b hw1
    have t1n := mul_nonneg hw1 e1a
    have t2 := mul_le_mul_of_nonneg_left hsk.2 hw2
    have t2n := mul_nonneg hw2 hsk.1
    have t3 := mul_le_mul_of_nonneg_left hex.2 hw3
    have t3n := mul_nonneg hw3 hex.1
    have t4 := mul_le_mul_of_nonneg_left hed.2 hw4
    have t4n := mul_nonneg hw4 hed.1
    have t5 := mul_le_mul_of_nonneg_left hpr2 hw5
    have t5n := mul_nonneg hw5 hpr1
    constructor <;> nlinarith
  have hover : (calculate_overall_score sim resume_data job_role w).overall_score
      = round2 (overall_raw_score sim resume_data job_role w) := rfl
  rw [hover]
  exact round2_bounds _ hraw.1 hraw.2

/-- Witness for `C1_overall_score_in_range` at the default weights, a
constant similarity of 1/2 and a concrete profile and role. -/
theorem C1_witness :
    (0 ≤ defaultW.semantic ∧ 0 ≤ defaultW.skills ∧ 0 ≤ defaultW.experience ∧
     0 ≤ defaultW.education ∧ 0 ≤ defaultW.projects) ∧
    defaultW.semantic + defaultW.skills + defaultW.experience + defaultW.education
      + defaultW.projects = 1 ∧
    (∀ a b, 0 ≤ constHalfSim a b) ∧
    (0 ≤ (calculate_overall_score constHalfSim cexResume cexRole defaultW).overall_score ∧
     (calculate_overall_score constHalfSim cexResume cexRole defaultW).overall_score ≤ 100) :=
  ⟨⟨by norm_num [defaultW], by norm_num [defaultW], by norm_num [defaultW],
    by norm_num [defaultW], by norm_num [defaultW]⟩,
   by norm_num [defaultW],
   fun a b => by norm_num [constHalfSim],
   C1_overall_score_in_range constHalfSim cexResume cexRole defaultW
     (by norm_num [defaultW]) (by norm_num [defaultW]) (by norm_num [defaultW])
     (by norm_num [defaultW]) (by norm_num [defaultW]) (by norm_num [defaultW])
     (fun a b => by norm_num [constHalfSim])⟩

/-- C2: for every similarity function, profile, role and weights, the
returned `is_shortlisted` flag is true exactly when the (rounded) overall
score is at least 70; in particular at an overall score of exactly 70.0 the
candidate is shortlisted (inclusive boundary). -/
theorem C2_shortlist_iff_70 (sim : SimFun) (resume_data : ResumeData)
    (job_role : JobRole) (w : Weights) :
    (calculate_overall_score sim resume_data job_role w).is_shortlisted = true ↔
    70 ≤ (calculate_overall_score sim resume_data job_role w).overall_score := by
  have h : (calculate_overall_score sim resume_data job_role w).is_shortlisted
      = decide (70 ≤ (calculate_overall_score sim resume_data job_role w).overall_score) := rfl
  rw [h]
  exact decide_eq_true_iff

/-- C3 evaluation: with one project of sufficient length and a cosine
similarity of -1/2 to the job description, `calculate_projects_score`
returns -50, strictly below 0 — contradicting both the claimed [0, 100]
component range and the docstring of the function itself. -/
theorem C3_projects_score_below_zero :
    calculate_projects_score (fun _ _ => -(1:ℚ)/2)
      [⟨"Chat App", "a realtime chat application"⟩] "job description" = -50 ∧
    calculate_projects_score (fun _ _ => -(1:ℚ)/2)
      [⟨"Chat App", "a realtime chat application"⟩] "job description" < 0 := by
  have hb : decide ((stripStr ("Chat App" ++ " " ++ "a realtime chat application")).length < 10)
      = false := by decide
  have h : calculate_projects_score (fun _ _ => -(1:ℚ)/2)
      [⟨"Chat App", "a realtime chat application"⟩] "job description" = -50 := by
    norm_num [calculate_projects_score, projText, min_def, List.filter, hb]
  exact ⟨h, by rw [h]; norm_num⟩

/-- Number of required skills counted as matched by the substring criterion
of `calculate_skills_score`. -/
def matchedCount (resume_skills required_skills : List String) : ℕ :=
  (required_skills.map normSkill).countP fun req =>
    (resume_skills.map normSkill).any fun res => strIn req res || strIn res req

/-- C4: the skills score is 50.0 when no skills are required; otherwise it
equals (matched count / required count) × 100, where a required skill
matches when (lower-cased and stripped) it is a substring of, or contains,
some candidate skill; and it is exactly 100 whenever every required skill
occurs verbatim among the candidate skills. -/
theorem C4_skills_score_spec :
    (∀ rs : List String, (calculate_skills_score rs []).1 = 50) ∧
    (∀ rs rq : List String, rq ≠ [] →
      (calculate_skills_score rs rq).1 = ((matchedCount rs rq : ℚ) / (rq.length : ℚ)) * 100) ∧
    (∀ rs rq : List String, rq ≠ [] → (∀ s ∈ rq, s ∈ rs) →
      (calculate_skills_score rs rq).1 = 100) := by
  refine ⟨?_, ?_, ?_⟩
  · intro rs
    simp [calculate_skills_score]
  · intro rs rq hne
    have h : rq.isEmpty = false := by simpa [List.isEmpty_iff] using hne
    simp only [calculate_skills_score, h, Bool.false_eq_true, if_false]
    simp [matchedCount, List.countP_eq_length_filter]
  · intro rs rq hne hsub
    have h : rq.isEmpty = false := by simpa [List.isEmpty_iff] using hne
    simp only [calculate_skills_score, h, Bool.false_eq_true, if_false]
    have hall : ∀ req ∈ rq.map normSkill,
        ((rs.map normSkill).any fun res => strIn req res || strIn res req) = true := by
      intro req hreq
      rcases List.mem_map.mp hreq with ⟨s, hs, rfl⟩
      refine List.any_eq_true.mpr ⟨normSkill s, List.mem_map_of_mem _ (hsub s hs), ?_⟩
      simp [strIn_self]
    rw [List.filter_eq_self.mpr hall]
    have hmapne : rq.map normSkill ≠ [] := fun hcon => hne (List.map_eq_nil_iff.mp hcon)
    have hlen : (0 : ℚ) < ((rq.map normSkill).length : ℚ) := by
      exact_mod_cast List.length_pos.mpr hmapne
    rw [div_self (ne_of_gt hlen)]
    norm_num

/-- Witness for `C4_skills_score_spec`: both required skills occur verbatim
among the candidate skills, and the score is 100. -/
theorem C4_witness :
    ((["python", "react"] : List String) ≠ []) ∧
    (∀ s ∈ (["python", "react"] : List String), s ∈ (["python", "react", "sql"] : List String)) ∧
    (calculate_skills_score ["python", "react", "sql"] ["python", "react"]).1 = 100 :=
  ⟨by decide, by decide,
   C4_skills_score_spec.2.2 ["python", "react", "sql"] ["python", "react"]
     (by decide) (by decide)⟩

/-- C5: the experience score is 100 when no years are required, 100 when the
candidate meets the requirement, and min(100, candidate/required × 100)
otherwise; and it is monotone in the candidate years for a fixed
requirement. -/
theorem C5_experience_score_spec :
    (∀ ry rq : ℕ, (calculate_experience_score ry rq).1 =
      (if rq = 0 then 100 else if rq ≤ ry then 100
       else min 100 ((ry : ℚ) / (rq : ℚ) * 100))) ∧
    (∀ rq r1 r2 : ℕ, r1 ≤ r2 →
      (calculate_experience_score r1 rq).1 ≤ (calculate_experience_score r2 rq).1) := by
  constructor
  · intro ry rq
    unfold calculate_experience_score
    split_ifs <;> rfl
  · intro rq r1 r2 h12
    rcases Nat.eq_zero_or_pos rq with h0 | h0
    · subst h0
      simp [calculate_experience_score]
    · have h0' : rq ≠ 0 := Nat.pos_iff_ne_zero.mp h0
      simp only [calculate_experience_score, h0', if_false]
      by_cases ha : rq ≤ r1
      · have hb : rq ≤ r2 := ha.trans h12
        simp [ha, hb]
      · by_cases hb : rq ≤ r2
        · simp only [ha, if_false, hb, if_true]
          exact min_le_left _ _
        · simp only [ha, hb, if_false]
          have hq : (0 : ℚ) < (rq : ℚ) := by exact_mod_cast h0
          have hdiv : (r1 : ℚ) / (rq : ℚ) ≤ (r2 : ℚ) / (rq : ℚ) :=
            (div_le_div_iff_of_pos_right hq).mpr (by exact_mod_cast h12)
          exact min_le_min (le_refl 100) (by nlinarith)

/-- Witness for `C5_experience_score_spec`: one year against a five-year
requirement scores no higher than three years against it. -/
theorem C5_witness :
    (1 : ℕ) ≤ 3 ∧
    (calculate_experience_score 1 5).1 ≤ (calculate_experience_score 3 5).1 :=
  ⟨by norm_num, C5_experience_score_spec.2 5 1 3 (by norm_num)⟩

/-- C6: the education score is 30 exactly when there are no education
entries; otherwise it is 100 when some entry's lower-cased degree+details
text contains one of the required level tokens for the title and 60 when
none does; and for the title "Data Scientist" the required levels come from
the "scientist" table row (master / m.tech / phd / ph.d), because
"scientist" is the first matching key in table order. -/
theorem C6_education_score_spec :
    (∀ (edu : List EduEntry) (title : String),
      (calculate_education_score edu title).1 =
        (if edu.isEmpty then 30
         else if edu.any (fun e => (resolveLevels title).any fun l => strIn l (eduText e))
         then 100 else 60)) ∧
    resolveLevels "Data Scientist" = ["master", "m.tech", "phd", "ph.d"] := by
  constructor
  · intro edu title
    unfold calculate_education_score
    by_cases h : edu.isEmpty
    · simp [h]
    · simp only [h, Bool.false_eq_true, if_false]
      cases hA : edu.any (fun e => (resolveLevels title).any fun l => strIn l (eduText e)) with
      | false =>
        have hempty : (edu.flatMap fun e =>
            (resolveLevels title).filter fun l => strIn l (eduText e)) = [] := by
          rw [List.flatMap_eq_nil_iff]
          intro e he
          rw [List.filter_eq_nil_iff]
          intro l hl
          have hAll := List.any_eq_false.mp hA e he
          have := List.any_eq_false.mp (Bool.not_eq_true _ ▸ (by simpa using hAll) :
            ((resolveLevels title).any fun l => strIn l (eduText e)) = false) l hl
          simpa using this
        simp [hempty]
      | true =>
        have hne : (edu.flatMap fun e =>
            (resolveLevels title).filter fun l => strIn l (eduText e)) ≠ [] := by
          rcases List.any_eq_true.mp hA with ⟨e, he, hin⟩
          rcases List.any_eq_true.mp hin with ⟨l, hl, hstr⟩
          intro hcon
          have := List.flatMap_eq_nil_iff.mp hcon e he
          have := List.filter_eq_nil_iff.mp this l hl
          simp [hstr] at this
        have hie : (edu.flatMap fun e =>
            (resolveLevels title).filter fun l => strIn l (eduText e)).isEmpty = false := by
          simpa [List.isEmpty_iff] using hne
        simp [hie]
  · decide

/-- C8 evaluation: when the role requires 0 years, the experience
explanation dict carries no `meets_requirement` key, so for an overall
score below 70 `_generate_recommendations` emits the shortfall line
"Need more experience: 0 years required" even though the experience score
is 100 and the (vacuous) requirement is met. -/
theorem C8_zero_requirement_shortfall_line :
    (calculate_experience_score 5 0).1 = 100 ∧
    generate_recommendations 50 ⟨[], [], []⟩ (calculate_experience_score 5 0).2
      ⟨some ["bachelor"], some ["bachelor", "b.tech", "b.e"], some true⟩
      = ["Need more experience: 0 years required"] := by
  constructor
  · norm_num [calculate_experience_score]
  · have h2 : (calculate_experience_score 5 0).2 = ⟨none, none, none⟩ := rfl
    rw [h2]
    have h70 : ((50 : ℚ) < 70) = True := by norm_num
    simp only [generate_recommendations, h70, if_true]
    decide

/-- The three ways `ResumeParser.parse` can dispatch on a file extension. -/
inductive ExtractRoute where
  | pdf
  | docx
  | unsupported
deriving DecidableEq, Repr

/-- Models the extension dispatch of `ResumeParser.parse` (lines 41-48),
where `file_ext = os.path.splitext(file_path)[1].lower()`: `.pdf` goes to
`_extract_from_pdf`; `.docx` and `.doc` both go to `_extract_from_docx`;
anything else raises the unsupported-format `ValueError`. -/
def parse_dispatch (file_ext : String) : ExtractRoute :=
  if file_ext == ".pdf" then ExtractRoute.pdf
  else if file_ext == ".docx" || file_ext == ".doc" then ExtractRoute.docx
  else ExtractRoute.unsupported

/-- C9 counterexample: a `.doc` extension is dispatched to the DOCX
extractor, not treated as an unsupported format. -/
theorem C9_counterexample :
    parse_dispatch ".doc" = ExtractRoute.docx ∧
    ExtractRoute.docx ≠ ExtractRoute.unsupported := by decide

/-- C9 (amended): `.doc` files are routed to the python-docx extraction
path exactly as `.docx` files are; only extensions other than `.pdf`,
`.docx` and `.doc` fail with the unsupported-format error. -/
theorem C9_doc_routed_as_docx :
    parse_dispatch ".doc" = ExtractRoute.docx ∧
    (∀ ext : String, ext ≠ ".pdf" → ext ≠ ".docx" → ext ≠ ".doc" →
      parse_dispatch ext = ExtractRoute.unsupported) := by
  constructor
  · decide
  · intro ext h1 h2 h3
    simp [parse_dispatch, h1, h2, h3]

/-- Witness for `C9_doc_routed_as_docx` at the extension ".txt". -/
theorem C9_witness :
    ((".txt" : String) ≠ ".pdf") ∧ ((".txt" : String) ≠ ".docx") ∧
    ((".txt" : String) ≠ ".doc") ∧
    parse_dispatch ".txt" = ExtractRoute.unsupported :=
  ⟨by decide, by decide, by decide,
   C9_doc_routed_as_docx.2 ".txt" (by decide) (by decide) (by decide)⟩

/-- A malformed weights dict: a negative semantic weight and three
non-positive component weights (values still sum to 1.0). -/
def badWeights : List (String × ℚ) :=
  [("semantic", -1), ("skills", 2), ("experience", 0),
   ("education", 0), ("projects", 0)]

/-- C10 counterexample: the malformed weights dict `badWeights`
(non-positive values) is not rejected — `calculate_overall_score` computes
and returns a score with it instead of failing with any typed error. -/
theorem C10_counterexample :
    (calculate_overall_score_custom constHalfSim cexResume cexRole
      (some badWeights)).isSome = true := by
  have h : weights_of_dict (resolve_custom_weights (some badWeights))
      = some ⟨-1, 2, 0, 0, 0⟩ := rfl
  simp [calculate_overall_score_custom, h]

/-- C10 (amended): `calculate_overall_score` performs no validation of
caller-supplied weights: an absent or empty (falsy) weights dict silently
falls back to the default weights; a non-empty dict containing all five
component keys is used verbatim — non-positive values included — and
produces a score; a non-empty dict missing some component key fails with an
untyped `KeyError` (modelled as `none`), never a typed `InvalidWeights`
error. -/
theorem C10_no_weight_validation :
    (∀ (sim : SimFun) (d : ResumeData) (r : JobRole),
      calculate_overall_score_custom sim d r none
        = some (calculate_overall_score sim d r defaultW)) ∧
    (∀ (sim : SimFun) (d : ResumeData) (r : JobRole),
      calculate_overall_score_custom sim d r (some [])
        = some (calculate_overall_score sim d r defaultW)) ∧
    (∀ (sim : SimFun) (d : ResumeData) (r : JobRole) (w : List (String × ℚ)) (ws : Weights),
      w ≠ [] → weights_of_dict w = some ws →
      calculate_overall_score_custom sim d r (some w)
        = some (calculate_overall_score sim d r ws)) ∧
    (∀ (sim : SimFun) (d : ResumeData) (r : JobRole) (w : List (String × ℚ)),
      w ≠ [] → weights_of_dict w = none →
      calculate_overall_score_custom sim d r (some w) = none) := by
  have hdef : weights_of_dict default_weights = some defaultW := rfl
  refine ⟨?_, ?_, ?_, ?_⟩
  · intro sim d r
    simp [calculate_overall_score_custom, resolve_custom_weights, hdef]
  · intro sim d r
    simp [calculate_overall_score_custom, resolve_custom_weights, hdef]
  · intro sim d r w ws hne hws
    have hr : resolve_custom_weights (some w) = w := by
      cases w with
      | nil => exact absurd rfl hne
      | cons a t => rfl
    simp [calculate_overall_score_custom, hr, hws]
  · intro sim d r w hne hws
    have hr : resolve_custom_weights (some w) = w := by
      cases w with
      | nil => exact absurd rfl hne
      | cons a t => rfl
    simp [calculate_overall_score_custom, hr, hws]

/-- Witness for `C10_no_weight_validation`: a non-empty weights dict missing
the skills key makes the call fail with a `KeyError` (no result). -/
theorem C10_witness :
    (([("semantic", (1:ℚ))] : List (String × ℚ)) ≠ []) ∧
    weights_of_dict [("semantic", (1:ℚ))] = none ∧
    calculate_overall_score_custom constHalfSim cexResume cexRole
      (some [("semantic", (1:ℚ))]) = none :=
  ⟨by simp, rfl,
   C10_no_weight_validation.2.2.2 constHalfSim cexResume cexRole
     [("semantic", (1:ℚ))] (by simp) rfl⟩

/-- Is `c` an ASCII decimal digit (regex `\d` on the lower-cased ASCII
resume text)? -/
def isDigitCh (c : Char) : Bool := '0' ≤ c && c ≤ '9'

/-- Numeric value of a digit run (Python `int` on the captured group). -/
def natOfDigits (l : List Char) : ℕ :=
  l.foldl (fun a c => 10 * a + (c.toNat - '0'.toNat)) 0

/-- Consume a literal from the front of `s`: the single resulting suffix,
or no result when the literal is not there. -/
def pLit (lit : List Char) (s : List Char) : List (List Char) :=
  if startsWithL lit s then [s.drop lit.length] else []

/-- Greedy `\s*` (regex whitespace is the same six ASCII characters as
`isWsChar` here): the suffixes reachable by consuming leading whitespace,
longest consumption first — the backtracking priority order of `re`. -/
def pWs : List Char → List (List Char)
  | [] => [[]]
  | c :: t => if isWsChar c then pWs t ++ [c :: t] else [c :: t]

/-- Greedy `(\d+)` with backtracking: every non-empty digit prefix of `s`,
longest first, paired with its numeric value. -/
def pDigits (s : List Char) : List (ℕ × List Char) :=
  let ds := s.takeWhile isDigitCh
  (List.range ds.length).map fun k =>
    (natOfDigits (ds.take (ds.length - k)), s.drop (ds.length - k))

/-- Ordered alternation `(?:years?|yrs?)`: regex alternative order with the
greedy optional `s` inside each branch. -/
def pYears (s : List Char) : List (List Char) :=
  pLit "years".data s ++ pLit "year".data s ++ pLit "yrs".data s ++ pLit "yr".data s

/-- Ordered alternation `(?:experience|exp)`. -/
def pExpWord (s : List Char) : List (List Char) :=
  pLit "experience".data s ++ pLit "exp".data s

/-- Greedy optional `(?:of\s*)?`. -/
def pOfOpt (s : List Char) : List (List Char) :=
  ((pLit "of".data s).flatMap pWs) ++ [s]

/-- Greedy optional `\+?`. -/
def pPlusOpt (s : List Char) : List (List Char) :=
  pLit "+".data s ++ [s]

/-- Greedy optional `[:;]?`. -/
def pPunctOpt (s : List Char) : List (List Char) :=
  pLit ":".data s ++ pLit ";".data s ++ [s]

/-- All matches, in backtracking priority order, of the first pattern of
`_extract_experience_years`,
`(\d+)\+?\s*(?:years?|yrs?)\s*(?:of\s*)?(?:experience|exp)`, anchored at
the start of `s`: captured number and remaining suffix. -/
def p1MatchHere (s : List Char) : List (ℕ × List Char) :=
  (pDigits s).flatMap fun nr =>
    (pPlusOpt nr.2).flatMap fun r2 =>
      (pWs r2).flatMap fun r3 =>
        (pYears r3).flatMap fun r4 =>
          (pWs r4).flatMap fun r5 =>
            (pOfOpt r5).flatMap fun r6 =>
              (pExpWord r6).map fun r7 => (nr.1, r7)

/-- All matches, in backtracking priority order, of the second pattern,
`(?:experience|exp)[:;]?\s*(\d+)\+?\s*(?:years?|yrs?)`, anchored at the
start of `s`. -/
def p2MatchHere (s : List Char) : List (ℕ × List Char) :=
  (pExpWord s).flatMap fun r1 =>
    (pPunctOpt r1).flatMap fun r2 =>
      (pWs r2).flatMap fun r3 =>
        (pDigits r3).flatMap fun nr =>
          (pPlusOpt nr.2).flatMap fun r5 =>
            (pWs r5).flatMap fun r6 =>
              (pYears r6).map fun r7 => (nr.1, r7)

/-- The left-to-right non-overlapping scan of `re.findall`: at each position
try the pattern (taking the highest-priority match); on a match record the
captured group and resume after the match, otherwise advance one character.
`fuel` bounds the recursion; both patterns consume at least one character
per match, so `length + 1` fuel always suffices. -/
def findallAux (m : List Char → List (ℕ × List Char)) : ℕ → List Char → List ℕ
  | 0, _ => []
  | Nat.succ fuel, s =>
    match m s with
    | (n, rest) :: _ => n :: findallAux m fuel rest
    | [] =>
      match s with
      | [] => []
      | _ :: t => findallAux m fuel t

/-- `re.findall` for one of the capture patterns: the captured numbers of
all non-overlapping matches, left to right. -/
def findallN (m : List Char → List (ℕ × List Char)) (s : List Char) : List ℕ :=
  findallAux m (s.length + 1) s

/-- Models `ResumeParser._extract_experience_years` (lines 127-148): the
text is lower-cased, each of the two patterns is searched with
`re.findall`, and the code takes `matches[0]` — the FIRST match — of each
pattern, keeping the maximum of the two; when that is 0 it falls back to
the number of entries found by `_extract_experience`, whose count on the
original text is supplied as the parameter `extract_experience_count`
(only the length of the entry list is consumed). -/
def extract_experience_years (extract_experience_count : List Char → ℕ)
    (text : List Char) : ℕ :=
  let tl := text.map Char.toLower
  let years0 : ℕ := 0
  let years1 :=
    match findallN p1MatchHere tl with
    | [] => years0
    | n :: _ => max years0 n
  let years2 :=
    match findallN p2MatchHere tl with
    | [] => years1
    | n :: _ => max years1 n
  if years2 = 0 then extract_experience_count text else years2

/-- Modelled from the claim, for comparison with the source behaviour: the
maximum N over ALL occurrences of the two numeric patterns in the
lower-cased text; the count of extracted experience entries when neither
pattern occurs. -/
def spec_extract_experience_years (extract_experience_count : List Char → ℕ)
    (text : List Char) : ℕ :=
  let tl := text.map Char.toLower
  let all := findallN p1MatchHere tl ++ findallN p2MatchHere tl
  if all = [] then extract_experience_count text else all.foldr max 0

/-- A resume text mentioning two different explicit year counts. -/
def c7text : List Char := "2 years of experience. 5 years of experience".data

/-- C7 counterexample: on a text whose first pattern occurs twice (with 2
and then 5 years), the code returns the first match, 2, while the claimed
maximum over all occurrences is 5. -/
theorem C7_counterexample :
    findallN p1MatchHere (c7text.map Char.toLower) = [2, 5] ∧
    extract_experience_years (fun _ => 0) c7text = 2 ∧
    spec_extract_experience_years (fun _ => 0) c7text = 5 ∧
    extract_experience_years (fun _ => 0) c7text ≠
      spec_extract_experience_years (fun _ => 0) c7text :=
  ⟨by decide, by decide, by decide, by decide⟩

/-- The first element of a `findall` result, 0 when there is none (the code
reads `matches[0]` guarded by a non-emptiness check). -/
def firstMatchOr0 : List ℕ → ℕ
  | [] => 0
  | n :: _ => n

/-- C7 (amended): the extracted experience years equal the maximum, over
the two patterns, of each pattern's FIRST occurrence in the lower-cased
text (0 for an absent pattern); when that maximum is 0 — in particular when
neither pattern occurs — the count of extracted experience entries is used;
and the result is never negative. -/
theorem C7_experience_years_first_match (cnt : List Char → ℕ) (text : List Char) :
    extract_experience_years cnt text =
      (if max (firstMatchOr0 (findallN p1MatchHere (text.map Char.toLower)))
              (firstMatchOr0 (findallN p2MatchHere (text.map Char.toLower))) = 0
       then cnt text
       else max (firstMatchOr0 (findallN p1MatchHere (text.map Char.toLower)))
                (firstMatchOr0 (findallN p2MatchHere (text.map Char.toLower)))) ∧
    0 ≤ extract_experience_years cnt text := by
  refine ⟨?_, Nat.zero_le _⟩
  simp only [extract_experience_years]
  cases h1 : findallN p1MatchHere (text.map Char.toLower) with
  | nil =>
    cases h2 : findallN p2MatchHere (text.map Char.toLower) with
    | nil => simp [firstMatchOr0]
    | cons b t => simp [firstMatchOr0]
  | cons a t =>
    cases h2 : findallN p2MatchHere (text.map Char.toLower) with
    | nil => simp [firstMatchOr0]
    | cons b t2 => simp [firstMatchOr0]
